import Mathlib

set_option maxRecDepth 8000
set_option maxHeartbeats 4000000

/-!
Verification of the transfer-tracker pipeline (src/data_fetcher.py).

The embedding models the three core pieces of `TransferDataFetcher`:

* `parse_transfer_fee` — the fee parser (`_parse_transfer_fee`, lines 133-157);
* `buildRecord` / `convertRecord` / `process_transfer_data` — the normalizer
  (`process_transfer_data`, lines 83-131);
* `generate_transfer_summary` — the summarizer (lines 159-189).

Python's loosely-typed values are modelled by the inductive `PyVal`
(None, str, int, float, dict).  A Python float produced by `float()` is
modelled by `PFloat`: an exact rational, NaN, or ±infinity — so
`float("nan")` succeeds in the model exactly as in CPython.  Every finite
constant appearing in the program and the claims (100.0, 0.5, divisions by
1000 and 1000000, sums and means of small tables) is exact in ℚ.  After
the pandas column coercions the table cells hold exact rationals, with
null (NaN/NaT) as `Option.none` — pandas treats NaN as null; ±infinity,
which pandas would keep as a non-null float, has no rational
representative, so tables holding infinite fees lie outside the model and
no claim depends on them.  A Python `AttributeError`/`TypeError` raised by
the source is modelled by `Except.error`.
-/

/-- Dynamic Python value: None, strings, ints, floats (as ℚ) and dicts. -/
inductive PyVal where
  | none : PyVal
  | str : String → PyVal
  | int : Int → PyVal
  | rat : Rat → PyVal
  | dict : List (String × PyVal) → PyVal

/-- Structural equality test on `PyVal`, mirroring Python `==` on these types
(ints and floats representing the same rational compare equal because both
are collapsed into `Rat`). -/
def PyVal.beq : PyVal → PyVal → Bool
  | .none, .none => true
  | .str a, .str b => a == b
  | .int a, .int b => a == b
  | .rat a, .rat b => a == b
  | .dict a, .dict b => beqEntries a b
  | _, _ => false
where
  beqEntries : List (String × PyVal) → List (String × PyVal) → Bool
  | [], [] => true
  | (k, v) :: r, (k2, v2) :: r2 => k == k2 && PyVal.beq v v2 && beqEntries r r2
  | _, _ => false

instance : BEq PyVal := ⟨PyVal.beq⟩

/-- Python truthiness (`if not fee_string`, `if not transfers`): None, "",
0, 0.0 and {} are falsy. -/
def pyTruthy : PyVal → Bool
  | .none => false
  | .str s => !s.data.isEmpty
  | .int n => n != 0
  | .rat q => q != 0
  | .dict es => !es.isEmpty

/-- Python `d.get(key, default)`: on a dict, the stored value when the key is
present (even if that value is None), otherwise the default; on any
non-dict value the attribute access `.get` raises `AttributeError`. -/
def pyGet (v : PyVal) (key : String) (dflt : PyVal) : Except String PyVal :=
  match v with
  | .dict es => .ok ((es.lookup key).getD dflt)
  | _ => .error "AttributeError: object has no attribute get"

/-! ### String primitives

Python string operations used by `_parse_transfer_fee` are modelled over
`List Char` with structural (fuel-based) recursion so that every proof can
be closed by kernel evaluation. -/

/-- Auxiliary for `listReplace`; the fuel starts at the length of the string,
and since the pattern is non-empty each step consumes at least one
character, so the fuel never runs out before the input does. -/
def listReplaceAux (pat rep : List Char) : Nat → List Char → List Char
  | 0, s => s
  | _ + 1, [] => []
  | n + 1, c :: rest =>
    if pat.isPrefixOf (c :: rest) then
      rep ++ listReplaceAux pat rep n ((c :: rest).drop pat.length)
    else
      c :: listReplaceAux pat rep n rest

/-- Python `s.replace(pat, rep)`: replace every non-overlapping occurrence,
left to right.  (The program only ever replaces non-empty patterns.) -/
def listReplace (s pat rep : List Char) : List Char :=
  if pat.isEmpty then s else listReplaceAux pat rep s.length s

/-- Python `s.lower()` (ASCII case folding; the currency symbols are
unaffected, as in Python). -/
def lowerChars (cs : List Char) : List Char := cs.map Char.toLower

/-- Python `s.strip()` as performed by `float()`: drop leading and trailing
whitespace. -/
def trimChars (cs : List Char) : List Char :=
  ((cs.dropWhile Char.isWhitespace).reverse.dropWhile Char.isWhitespace).reverse

/-- Decimal digits to a natural number. -/
def digitsToNat (ds : List Char) : Nat :=
  ds.foldl (fun a c => a * 10 + (c.toNat - 48)) 0

/-- A Python float as produced by `float()`: a finite (exact rational)
value, NaN, or ±infinity. -/
inductive PFloat where
  | finite : Rat → PFloat
  | nan : PFloat
  | inf : PFloat
  | ninf : PFloat
deriving DecidableEq

/-- Division of a Python float by a positive finite constant, as performed
by the fee parser's `/1000` and `/1000000`: finite values divide exactly,
NaN stays NaN, ±infinity stay ±infinity. -/
def PFloat.divPos (x : PFloat) (c : Rat) : PFloat :=
  match x with
  | .finite q => .finite (q / c)
  | .nan => .nan
  | .inf => .inf
  | .ninf => .ninf

/-- Continuation of a digit group: further digits, with single underscores
allowed only between two digits (CPython's digit-separator rule); a
dangling or doubled underscore is left unconsumed, making the whole
literal invalid. -/
def digitsUAux : List Char → List Char × List Char
  | [] => ([], [])
  | c :: rest =>
    if c.isDigit then
      let p := digitsUAux rest
      (c :: p.1, p.2)
    else if c = '_' then
      match rest with
      | c2 :: rest2 =>
        if c2.isDigit then
          let p := digitsUAux rest2
          (c2 :: p.1, p.2)
        else ([], c :: rest)
      | [] => ([], [c])
    else ([], c :: rest)

/-- A digit group of a float literal: it must start with a digit and may
contain single underscores between digits; returns the digits (separators
stripped) and the unconsumed remainder. -/
def takeDigitsU : List Char → List Char × List Char
  | [] => ([], [])
  | c :: rest =>
    if c.isDigit then
      let p := digitsUAux rest
      (c :: p.1, p.2)
    else ([], c :: rest)

/-- Exponent tail of a float literal: optional sign then a digit group. -/
def parseExpTail (mant : Rat) (cs : List Char) : Option Rat :=
  let signed : Bool × List Char :=
    match cs with
    | '-' :: r => (true, r)
    | '+' :: r => (false, r)
    | r => (false, r)
  let ds := takeDigitsU signed.2
  if ds.1.isEmpty || !ds.2.isEmpty then Option.none
  else
    let e := digitsToNat ds.1
    Option.some (if signed.1 then mant / (10 : Rat) ^ e else mant * (10 : Rat) ^ e)

/-- After the mantissa: end of string, or an exponent part. -/
def parseExpPart (mant : Rat) : List Char → Option Rat
  | [] => Option.some mant
  | 'e' :: rest => parseExpTail mant rest
  | 'E' :: rest => parseExpTail mant rest
  | _ => Option.none

/-- Unsigned finite float literal: a digit group, optional fraction,
optional exponent. -/
def parseUnsigned (cs : List Char) : Option Rat :=
  let ipr := takeDigitsU cs
  match ipr.2 with
  | [] => if ipr.1.isEmpty then Option.none else Option.some (digitsToNat ipr.1 : Rat)
  | '.' :: rest2 =>
    let fpr := takeDigitsU rest2
    if ipr.1.isEmpty && fpr.1.isEmpty then Option.none
    else
      parseExpPart
        ((digitsToNat ipr.1 : Rat) + (digitsToNat fpr.1 : Rat) / (10 : Rat) ^ fpr.1.length)
        fpr.2
  | rest => if ipr.1.isEmpty then Option.none else parseExpPart (digitsToNat ipr.1 : Rat) rest

/-- Model of Python `float(s)` on strings: strip whitespace, optional sign,
then either one of the case-insensitive special literals `nan`, `inf`,
`infinity` (CPython accepts them, with the sign ignored on NaN) or a
finite decimal literal with optional fraction, exponent and underscore
digit separators; `none` models a `ValueError`. -/
def pyFloat (s : List Char) : Option PFloat :=
  let cs := trimChars s
  let signed : Bool × List Char :=
    match cs with
    | '-' :: r => (true, r)
    | '+' :: r => (false, r)
    | r => (false, r)
  let low := lowerChars signed.2
  if low = "nan".data then Option.some PFloat.nan
  else if low = "inf".data || low = "infinity".data then
    Option.some (if signed.1 then PFloat.ninf else PFloat.inf)
  else
    (parseUnsigned signed.2).map fun q =>
      PFloat.finite (if signed.1 then -q else q)

/-! ### The fee parser (`_parse_transfer_fee`, lines 133-157) -/

/-- The whole-string markers recognised as "no fee" (line 143). -/
def noFeeList : List (List Char) :=
  ["free".data, "free transfer".data, "loan".data, "-".data]

/-- Line 147: strip the currency symbols and spaces. -/
def cleanFee (cs : List Char) : List Char :=
  listReplace (listReplace (listReplace (listReplace cs "€".data []) "£".data []) "$".data [])
    " ".data []

/-- `_parse_transfer_fee` (lines 133-157).  The argument is the raw `fee`
value; a falsy value (None, "", 0, 0.0, {}) returns 0.0 via the
`if not fee_string` test, a truthy non-string raises `AttributeError` at
`.lower()`, and on strings the M/K/plain branches each degrade a
`ValueError` from `float` to 0.0. -/
def parse_transfer_fee (fee : PyVal) : Except String PFloat :=
  if !pyTruthy fee then .ok (.finite 0)
  else
    match fee with
    | .str s =>
      if noFeeList.contains (lowerChars s.data) then .ok (.finite 0)
      else
        let clean := cleanFee s.data
        if clean.contains 'M' then
          match pyFloat (listReplace clean "M".data []) with
          | Option.some x => .ok x
          | Option.none => .ok (.finite 0)
        else if clean.contains 'K' then
          match pyFloat (listReplace clean "K".data []) with
          | Option.some x => .ok (x.divPos 1000)
          | Option.none => .ok (.finite 0)
        else
          match pyFloat clean with
          | Option.some x => .ok (x.divPos 1000000)
          | Option.none => .ok (.finite 0)
    | _ => .error "AttributeError: object has no attribute lower"

/-- The cleaned remainder handed to `float` by `_parse_transfer_fee` on a
string input: `none` when the no-fee branch answers first, otherwise the
cleaned string with the scale suffix removed, per branch. -/
def feeRemainder (s : String) : Option (List Char) :=
  if !pyTruthy (.str s) then Option.none
  else if noFeeList.contains (lowerChars s.data) then Option.none
  else
    let clean := cleanFee s.data
    if clean.contains 'M' then Option.some (listReplace clean "M".data [])
    else if clean.contains 'K' then Option.some (listReplace clean "K".data [])
    else Option.some clean

deriving instance DecidableEq for Except

/-! ### The normalizer (`process_transfer_data`, lines 83-131) -/

/-- A calendar date, the payload of a parsed `transfer_date`. -/
structure PDate where
  year : Nat
  month : Nat
  day : Nat
deriving DecidableEq

/-- Split a character list at a separator character (Python `s.split(sep)`
semantics for a one-character separator). -/
def splitOnChar (sep : Char) (cs : List Char) : List (List Char) :=
  cs.foldr
    (fun c acc =>
      if c = sep then [] :: acc
      else
        match acc with
        | g :: gs => (c :: g) :: gs
        | [] => [[c]])
    [[]]

/-- ISO `YYYY-MM-DD` date parsing: the model of the date formats accepted by
`pd.to_datetime(..., errors="coerce")` (line 126); anything else coerces to
`NaT`, i.e. `none`.  (pandas accepts further formats; the claims only rely
on unparseable input coercing to null and on the month projection.) -/
def parseISODate (cs : List Char) : Option PDate :=
  match splitOnChar '-' cs with
  | [y, m, d] =>
    if !y.isEmpty && y.all Char.isDigit && !m.isEmpty && m.all Char.isDigit &&
        !d.isEmpty && d.all Char.isDigit &&
        1 ≤ digitsToNat m && digitsToNat m ≤ 12 && 1 ≤ digitsToNat d && digitsToNat d ≤ 31 then
      Option.some ⟨digitsToNat y, digitsToNat m, digitsToNat d⟩
    else Option.none
  | _ => Option.none

/-- `pd.to_datetime(value, errors="coerce")` applied to one cell (line 126):
strings are parsed as dates and anything unparseable becomes `NaT`
(`none`). -/
def pdToDatetime (v : PyVal) : Option PDate :=
  match v with
  | .str s => parseISODate s.data
  | _ => Option.none

/-- A Python float as a pandas column cell: a finite float is a non-null
value and NaN is pandas-null.  (±infinity is a non-null float in pandas
but has no rational representative; tables holding it lie outside the
model, and no claim asserts anything about infinite cells.) -/
def pdCellOfFloat : PFloat → Option Rat
  | .finite q => Option.some q
  | _ => Option.none

/-- `pd.to_numeric(value, errors="coerce")` applied to one cell (lines
127-129): numbers pass through, numeric strings are parsed (modelled with
`float()`-style parsing, under which "nan" yields NaN, i.e. null),
anything else (including None) becomes `NaN` (`none`). -/
def pdToNumeric (v : PyVal) : Option Rat :=
  match v with
  | .int n => Option.some (n : Rat)
  | .rat q => Option.some q
  | .str s => (pyFloat s.data).bind pdCellOfFloat
  | _ => Option.none

/-- One row of the dict built in the loop body (lines 100-119), before the
DataFrame column coercions: every field still holds the raw dynamic value,
except `transfer_fee`, which `_parse_transfer_fee` has already turned into
a float. -/
structure Record0 where
  player_id : PyVal
  player_name : PyVal
  player_age : PyVal
  player_position : PyVal
  player_nationality : PyVal
  from_club_id : PyVal
  from_club_name : PyVal
  from_club_league : PyVal
  to_club_id : PyVal
  to_club_name : PyVal
  to_club_league : PyVal
  transfer_fee : PFloat
  transfer_fee_currency : PyVal
  transfer_date : PyVal
  transfer_type : PyVal
  contract_duration : PyVal
  season : PyVal
  market_value : PyVal

/-- A row after the column conversions of lines 125-129: `player_age`,
`transfer_fee` and `market_value` numeric-coerced (`none` = NaN),
`transfer_date` datetime-coerced (`none` = NaT). -/
structure FlatTransfer where
  player_id : PyVal
  player_name : PyVal
  player_age : Option Rat
  player_position : PyVal
  player_nationality : PyVal
  from_club_id : PyVal
  from_club_name : PyVal
  from_club_league : PyVal
  to_club_id : PyVal
  to_club_name : PyVal
  to_club_league : PyVal
  transfer_fee : Option Rat
  transfer_fee_currency : PyVal
  transfer_date : Option PDate
  transfer_type : PyVal
  contract_duration : PyVal
  season : PyVal
  market_value : Option Rat

/-- The empty-string / null row used as fallback when indexing off a table
(never reached on the guarded paths). -/
def FlatTransfer.defaultRow : FlatTransfer :=
  ⟨.str "", .str "", Option.none, .str "", .str "", .str "", .str "", .str "",
    .str "", .str "", .str "", Option.none, .str "", Option.none, .str "", .str "", .str "",
    Option.none⟩

instance : Inhabited FlatTransfer := ⟨FlatTransfer.defaultRow⟩

/-- The record construction of lines 100-119.  Each nested access
`transfer.get(X, {}).get(y, default)` is modelled by two `pyGet` steps, and
any `AttributeError` (a non-dict where `.get` is called) propagates, in the
source's evaluation order. -/
def buildRecord (t : PyVal) : Except String Record0 := do
  let player ← pyGet t "player" (.dict [])
  let player_id ← pyGet player "id" (.str "")
  let player_name ← pyGet player "name" (.str "")
  let player_age ← pyGet player "age" (.int 0)
  let player_position ← pyGet player "position" (.str "")
  let player_nationality ← pyGet player "nationality" (.str "")
  let from_club ← pyGet t "from_club" (.dict [])
  let from_club_id ← pyGet from_club "id" (.str "")
  let from_club_name ← pyGet from_club "name" (.str "")
  let from_club_league ← pyGet from_club "league" (.str "")
  let to_club ← pyGet t "to_club" (.dict [])
  let to_club_id ← pyGet to_club "id" (.str "")
  let to_club_name ← pyGet to_club "name" (.str "")
  let to_club_league ← pyGet to_club "league" (.str "")
  let fee_raw ← pyGet t "fee" (.str "")
  let transfer_fee ← parse_transfer_fee fee_raw
  let transfer_fee_currency ← pyGet t "fee_currency" (.str "EUR")
  let transfer_date ← pyGet t "date" (.str "")
  let transfer_type ← pyGet t "type" (.str "")
  let contract_duration ← pyGet t "contract_duration" (.str "")
  let season ← pyGet t "season" (.str "")
  let market_value ← pyGet player "market_value" (.int 0)
  return ⟨player_id, player_name, player_age, player_position, player_nationality,
    from_club_id, from_club_name, from_club_league, to_club_id, to_club_name,
    to_club_league, transfer_fee, transfer_fee_currency, transfer_date, transfer_type,
    contract_duration, season, market_value⟩

/-- The data-type conversions of lines 125-129, applied cell-wise to the four
converted columns.  The fee column already holds parser-produced floats:
`pd.to_numeric` keeps them, so a finite fee stays a non-null value and a
NaN fee becomes a pandas null. -/
def convertRecord (r : Record0) : FlatTransfer :=
  ⟨r.player_id, r.player_name, pdToNumeric r.player_age, r.player_position,
    r.player_nationality, r.from_club_id, r.from_club_name, r.from_club_league,
    r.to_club_id, r.to_club_name, r.to_club_league, pdCellOfFloat r.transfer_fee,
    r.transfer_fee_currency, pdToDatetime r.transfer_date, r.transfer_type,
    r.contract_duration, r.season, pdToNumeric r.market_value⟩

/-- The `for transfer in transfers` loop (lines 99-120): rows in input order,
the first raised `AttributeError` aborting the whole call. -/
def buildAll : List PyVal → Except String (List Record0)
  | [] => .ok []
  | t :: rest => do
    let r ← buildRecord t
    let rs ← buildAll rest
    return r :: rs

/-- `process_transfer_data` (lines 83-131): empty input short-circuits to the
empty DataFrame, otherwise build every row and apply the column
conversions. -/
def process_transfer_data (transfers : List PyVal) : Except String (List FlatTransfer) :=
  match transfers with
  | [] => .ok []
  | _ :: _ => (buildAll transfers).map (List.map convertRecord)

/-! ### The summarizer (`generate_transfer_summary`, lines 159-189) -/

/-- `series.sum()` with pandas `skipna` semantics: nulls are dropped and the
empty sum is 0. -/
def seriesSum (xs : List (Option Rat)) : Rat :=
  (xs.filterMap id).sum

/-- `series.mean()`: nulls dropped; the mean of an all-null series is NaN
(`none`). -/
def seriesMean (xs : List (Option Rat)) : Option Rat :=
  let v := xs.filterMap id
  if v.isEmpty then Option.none else Option.some (v.sum / (v.length : Rat))

/-- `series.median()`: nulls dropped, values sorted, middle value (odd
count) or average of the two middle values (even count); all-null gives
NaN. -/
def seriesMedian (xs : List (Option Rat)) : Option Rat :=
  let v := (xs.filterMap id).insertionSort (· ≤ ·)
  if v.isEmpty then Option.none
  else if v.length % 2 = 1 then Option.some (v.getD (v.length / 2) 0)
  else Option.some ((v.getD (v.length / 2 - 1) 0 + v.getD (v.length / 2) 0) / 2)

/-- One step of the running maximum underlying `series.max()`. -/
def optMaxStep (acc : Option Rat) (x : Rat) : Option Rat :=
  match acc with
  | Option.none => Option.some x
  | Option.some m => Option.some (max m x)

/-- Running maximum over the non-null values (`series.max()` skips NaN; the
max of an all-null series is NaN). -/
def seriesMax (xs : List (Option Rat)) : Option Rat :=
  (xs.filterMap id).foldl optMaxStep Option.none

/-- Index of the first element satisfying the predicate. -/
def firstIdx (p : α → Bool) : List α → Option Nat
  | [] => Option.none
  | x :: xs => if p x then Option.some 0 else (firstIdx p xs).map (· + 1)

/-- `series.idxmax()` on a RangeIndex: the positional index of the first
occurrence of the maximal non-null value.  (The source only evaluates it
under the not-all-null guard, where it is defined.) -/
def idxmaxFee (xs : List (Option Rat)) : Option Nat :=
  match seriesMax xs with
  | Option.none => Option.none
  | Option.some m => firstIdx (fun x => decide (x = Option.some m)) xs

/-- Distinct values in first-appearance order, with Python `==` as the
equality. -/
def uniqKeys (ks : List PyVal) : List PyVal :=
  ks.foldl (fun acc k => if acc.contains k then acc else acc ++ [k]) []

/-- `df.groupby(keyColumn)[valueColumn].sum()`: one entry per distinct key,
each with the skipna sum of the values in its group.  (pandas emits the
groups sorted by key; group order is irrelevant to every claim, and the
result is consumed as an unordered dict, so keys are listed here in
first-appearance order.) -/
def groupSum (keys : List PyVal) (vals : List (Option Rat)) : List (PyVal × Rat) :=
  (uniqKeys keys).map fun k =>
    (k, seriesSum ((keys.zip vals).filterMap fun kv => if kv.1 == k then Option.some kv.2 else Option.none))

/-- `series.value_counts().to_dict()`: occurrence count per distinct value,
largest count first (stable). -/
def valueCounts (xs : List PyVal) : List (PyVal × Nat) :=
  (((uniqKeys xs).map fun k => (k, (xs.filter (· == k)).length)).insertionSort
    fun a b => b.2 ≤ a.2)

/-- `.nlargest(n)` on the grouped sums: sort by value descending (stable)
and keep the first `n`. -/
def nlargest (n : Nat) (xs : List (PyVal × Rat)) : List (PyVal × Rat) :=
  (xs.insertionSort fun a b => b.2 ≤ a.2).take n

/-- The month a record contributes to `transfers_by_month`
(`df['transfer_date'].dt.month`): `none` on NaT, which the groupby then
drops. -/
def monthOf (r : FlatTransfer) : Option Nat :=
  r.transfer_date.map PDate.month

/-- `df.groupby(df['transfer_date'].dt.month)['transfer_fee'].sum()` (line
184): records with a null date are dropped with their NaN key; the
surviving keys are grouped (pandas emits them sorted ascending) and each is
mapped to the skipna sum of the fees of its records. -/
def transfersByMonth (df : List FlatTransfer) : List (Nat × Rat) :=
  ((df.filterMap monthOf).dedup.insertionSort (· ≤ ·)).map fun m =>
    (m, seriesSum ((df.filter fun r => decide (monthOf r = Option.some m)).map
      FlatTransfer.transfer_fee))

/-- The `most_expensive_transfer` sub-dict (lines 177-182): the three name
fields fall back to `""` when every fee is null, otherwise they are read
from the `idxmax` row; the fee is the column max (NaN when all fees are
null — it is not defaulted to 0). -/
structure MostExpensive where
  player : PyVal
  fee : Option Rat
  from_club : PyVal
  to_club : PyVal

/-- The summary dict of lines 172-187. -/
structure SummaryReport where
  total_transfers : Nat
  total_spending : Rat
  average_fee : Option Rat
  median_fee : Option Rat
  most_expensive_transfer : MostExpensive
  transfers_by_position : List (PyVal × Nat)
  transfers_by_month : List (Nat × Rat)
  top_spending_clubs : List (PyVal × Rat)
  top_selling_clubs : List (PyVal × Rat)

/-- `generate_transfer_summary` (lines 159-189): the empty table
short-circuits to the empty dict (`none`) before any aggregate is touched;
otherwise every aggregate of lines 172-187 is computed. -/
def generate_transfer_summary (df : List FlatTransfer) : Option SummaryReport :=
  match df with
  | [] => Option.none
  | _ :: _ =>
    let fees := df.map FlatTransfer.transfer_fee
    Option.some
      { total_transfers := df.length
        total_spending := seriesSum fees
        average_fee := seriesMean fees
        median_fee := seriesMedian fees
        most_expensive_transfer :=
          { player :=
              if fees.all Option.isNone then .str ""
              else
                match idxmaxFee fees with
                | Option.some i => (df.getD i FlatTransfer.defaultRow).player_name
                | Option.none => .str ""
            fee := seriesMax fees
            from_club :=
              if fees.all Option.isNone then .str ""
              else
                match idxmaxFee fees with
                | Option.some i => (df.getD i FlatTransfer.defaultRow).from_club_name
                | Option.none => .str ""
            to_club :=
              if fees.all Option.isNone then .str ""
              else
                match idxmaxFee fees with
                | Option.some i => (df.getD i FlatTransfer.defaultRow).to_club_name
                | Option.none => .str "" }
        transfers_by_position := valueCounts (df.map FlatTransfer.player_position)
        transfers_by_month := transfersByMonth df
        top_spending_clubs := nlargest 10 (groupSum (df.map FlatTransfer.to_club_name) fees)
        top_selling_clubs := nlargest 10 (groupSum (df.map FlatTransfer.from_club_name) fees) }

/-- The three-row table of the concrete aggregation scenario: fees 10.0,
20.0 and null, destination clubs "A", "B", "A". -/
def scenarioTable : List FlatTransfer :=
  [{ FlatTransfer.defaultRow with transfer_fee := Option.some 10, to_club_name := .str "A" },
   { FlatTransfer.defaultRow with transfer_fee := Option.some 20, to_club_name := .str "B" },
   { FlatTransfer.defaultRow with transfer_fee := Option.none, to_club_name := .str "A" }]

/-- The rows of the tie-break witness table: both carry the maximal fee 5,
with different player names. -/
def tieRowP1 : FlatTransfer :=
  { FlatTransfer.defaultRow with transfer_fee := Option.some 5, player_name := .str "P1" }

/-- Second row of the tie-break witness table. -/
def tieRowP2 : FlatTransfer :=
  { FlatTransfer.defaultRow with transfer_fee := Option.some 5, player_name := .str "P2" }

/-- A row with a parsed July 2025 date, for the month-grouping witness. -/
def datedRow : FlatTransfer :=
  { FlatTransfer.defaultRow with
      transfer_fee := Option.some 3, transfer_date := Option.some ⟨2025, 7, 1⟩ }

/-- Does a raw nested field hold a mapping (or is it absent, so that the
`.get(key, {})` default applies)?  When this fails, the chained `.get` of
lines 101-118 raises `AttributeError`. -/
def optIsDict : Option PyVal → Bool
  | Option.none => true
  | Option.some (.dict _) => true
  | Option.some _ => false

/-- Is the value a Python string? -/
def isStrVal : PyVal → Bool
  | .str _ => true
  | _ => false

/-- The raw-record shapes on which the normalizer cannot raise: the record is
a mapping, the `player`/`from_club`/`to_club` values (when present) are
mappings, and the `fee` value (after the `""` default) is falsy or a
string. -/
def wellShaped (t : PyVal) : Bool :=
  match t with
  | .dict es =>
    optIsDict (es.lookup "player") && optIsDict (es.lookup "from_club") &&
      optIsDict (es.lookup "to_club") &&
      (!pyTruthy ((es.lookup "fee").getD (.str "")) ||
        isStrVal ((es.lookup "fee").getD (.str "")))
  | _ => false

/-! ### Helper lemmas -/

/-- An `Except` value is `isOk` exactly when it is an `ok`. -/
theorem isOk_iff_exists {ε α : Type} (e : Except ε α) :
    e.isOk = true ↔ ∃ q, e = .ok q := by
  cases e <;> simp [Except.isOk, Except.toBool]

/-- The fee parser never raises on a string argument: every branch of
`_parse_transfer_fee` on a string either returns a parsed value or degrades
a `ValueError` to 0.0. -/
theorem parse_transfer_fee_str_isOk (s : String) :
    (parse_transfer_fee (.str s)).isOk = true := by
  simp only [parse_transfer_fee]
  repeat' split
  all_goals rfl

/-- On falsy-or-string fee values the parser succeeds. -/
theorem parse_transfer_fee_ok_of (f : PyVal)
    (h : (!pyTruthy f || isStrVal f) = true) :
    ∃ q, parse_transfer_fee f = .ok q := by
  rw [Bool.or_eq_true] at h
  rcases h with h | h
  · exact ⟨PFloat.finite 0, by simp [parse_transfer_fee, h]⟩
  · match f, h with
    | .str s, _ => exact (isOk_iff_exists _).mp (parse_transfer_fee_str_isOk s)

/-- Invariant of the running maximum: starting from an element `a`, the fold
produces a maximum of `a` and the list. -/
theorem foldl_optMaxStep_spec (l : List Rat) :
    ∀ a : Rat, ∃ m, l.foldl optMaxStep (Option.some a) = Option.some m ∧
      (m = a ∨ m ∈ l) ∧ a ≤ m ∧ ∀ x ∈ l, x ≤ m := by
  induction l with
  | nil => exact fun a => ⟨a, rfl, Or.inl rfl, le_refl a, by simp⟩
  | cons x l ih =>
    intro a
    obtain ⟨m, hm, hmem, hle, hub⟩ := ih (max a x)
    refine ⟨m, hm, ?_, le_trans (le_max_left a x) hle, ?_⟩
    · rcases hmem with h | h
      · rcases max_choice a x with hc | hc <;> rw [hc] at h
        · exact Or.inl h
        · exact Or.inr (by simp [h])
      · exact Or.inr (by simp [h])
    · intro y hy
      rcases List.mem_cons.mp hy with h | h
      · exact le_trans (h ▸ le_max_right a x) hle
      · exact hub y h

/-- Membership in `filterMap id` over optional values. -/
theorem mem_filterMap_id {b : Rat} {l : List (Option Rat)} :
    b ∈ l.filterMap id ↔ Option.some b ∈ l := by
  simp [List.mem_filterMap]

/-- `series.max()` on a series with at least one non-null value returns a
non-null value of the series that bounds every non-null value. -/
theorem seriesMax_spec (xs : List (Option Rat)) (hx : xs.filterMap id ≠ []) :
    ∃ m, seriesMax xs = Option.some m ∧ Option.some m ∈ xs ∧
      ∀ x, Option.some x ∈ xs → x ≤ m := by
  unfold seriesMax
  rcases hv : xs.filterMap id with _ | ⟨y, rest⟩
  · exact absurd hv hx
  · obtain ⟨m, hm, hmem, -, hub⟩ := foldl_optMaxStep_spec rest y
    refine ⟨m, ?_, ?_, ?_⟩
    · simpa [optMaxStep] using hm
    · rcases hmem with h | h
      · exact mem_filterMap_id.mp (by rw [hv, h]; exact List.mem_cons_self _ _)
      · exact mem_filterMap_id.mp (by rw [hv]; exact List.mem_cons_of_mem _ h)
    · intro x hxm
      have hx2 : x ∈ xs.filterMap id := mem_filterMap_id.mpr hxm
      rw [hv] at hx2
      rcases List.mem_cons.mp hx2 with h | h
      · obtain ⟨m2, hm2, hmem2, hle2, -⟩ := foldl_optMaxStep_spec rest y
        rw [hm] at hm2
        cases hm2
        exact h ▸ hle2
      · exact hub x h

/-- An all-null series filters to the empty list. -/
theorem filterMap_id_eq_nil {l : List (Option Rat)}
    (h : ∀ x ∈ l, x = Option.none) : l.filterMap id = [] := by
  rw [List.filterMap_eq_nil_iff]
  intro a ha
  simp [h a ha]

/-- `firstIdx` finds an index inside the list bounds, at which the predicate
holds, and before which it fails everywhere. -/
theorem firstIdx_spec {α : Type} (p : α → Bool) (d : α) :
    ∀ (l : List α) (i : Nat), firstIdx p l = Option.some i →
      i < l.length ∧ p (l.getD i d) = true ∧ ∀ j, j < i → p (l.getD j d) = false := by
  intro l
  induction l with
  | nil => intro i h; simp [firstIdx] at h
  | cons x xs ih =>
    intro i h
    by_cases hp : p x = true
    · simp only [firstIdx, hp, if_pos] at h
      cases h
      exact ⟨Nat.succ_pos _, hp, fun j hj => absurd hj (Nat.not_lt_zero j)⟩
    · simp only [firstIdx, hp, if_neg, Bool.not_eq_true] at h
      rcases hprev : firstIdx p xs with _ | i2
      · rw [hprev] at h; simp at h
      · rw [hprev] at h
        have h2 : i2 + 1 = i := by simpa using h
        subst h2
        obtain ⟨hlt, hat, hbefore⟩ := ih i2 hprev
        refine ⟨Nat.succ_lt_succ hlt, by simpa [List.getD] using hat, ?_⟩
        intro j hj
        cases j with
        | zero =>
          simp only [List.getD_cons_zero]
          exact (Bool.not_eq_true _) ▸ hp
        | succ j2 =>
          have hj2 : j2 < i2 := Nat.lt_of_succ_lt_succ hj
          simpa [List.getD] using hbefore j2 hj2

/-- `firstIdx` succeeds as soon as some element satisfies the predicate. -/
theorem firstIdx_isSome {α : Type} (p : α → Bool) :
    ∀ l : List α, (∃ x ∈ l, p x = true) → ∃ i, firstIdx p l = Option.some i := by
  intro l
  induction l with
  | nil => rintro ⟨x, hx, -⟩; simp at hx
  | cons x xs ih =>
    rintro ⟨y, hy, hp⟩
    by_cases hx : p x = true
    · exact ⟨0, by simp [firstIdx, hx]⟩
    · rcases List.mem_cons.mp hy with h | h
      · exact absurd (h ▸ hp) hx
      · obtain ⟨i, hi⟩ := ih ⟨y, h, hp⟩
        exact ⟨i + 1, by simp [firstIdx, hx, hi]⟩

/-- `getD` through `map`, for indices inside the list. -/
theorem getD_map_of_lt {α β : Type} (f : α → β) (d : α) (b : β) :
    ∀ (l : List α) (i : Nat), i < l.length → (l.map f).getD i b = f (l.getD i d) := by
  intro l
  induction l with
  | nil => intro i h; simp at h
  | cons x xs ih =>
    intro i h
    cases i with
    | zero => simp [List.getD]
    | succ i2 => simpa [List.getD] using ih i2 (Nat.lt_of_succ_lt_succ h)

/-- When the cleaned remainder fails to parse as a float, the branch taken by
`_parse_transfer_fee` degrades to 0.0. -/
theorem parse_fee_of_remainder_none (s : String) (r : List Char)
    (hr : feeRemainder s = Option.some r) (hn : pyFloat r = Option.none) :
    parse_transfer_fee (.str s) = .ok (PFloat.finite 0) := by
  by_cases h1 : pyTruthy (PyVal.str s) = true
  · by_cases h2 : noFeeList.contains (lowerChars s.data) = true
    · simp only [parse_transfer_fee]
      rw [h1]
      simp only [Bool.not_true, Bool.false_eq_true, if_false]
      rw [if_pos h2]
    · by_cases h3 : (cleanFee s.data).contains 'M' = true
      · simp only [feeRemainder] at hr
        rw [h1] at hr
        simp only [Bool.not_true, Bool.false_eq_true, if_false] at hr
        rw [if_neg h2, if_pos h3] at hr
        rw [← Option.some.inj hr] at hn
        simp only [parse_transfer_fee]
        rw [h1]
        simp only [Bool.not_true, Bool.false_eq_true, if_false]
        rw [if_neg h2, if_pos h3, hn]
      · by_cases h4 : (cleanFee s.data).contains 'K' = true
        · simp only [feeRemainder] at hr
          rw [h1] at hr
          simp only [Bool.not_true, Bool.false_eq_true, if_false] at hr
          rw [if_neg h2, if_neg h3, if_pos h4] at hr
          rw [← Option.some.inj hr] at hn
          simp only [parse_transfer_fee]
          rw [h1]
          simp only [Bool.not_true, Bool.false_eq_true, if_false]
          rw [if_neg h2, if_neg h3, if_pos h4, hn]
        · simp only [feeRemainder] at hr
          rw [h1] at hr
          simp only [Bool.not_true, Bool.false_eq_true, if_false] at hr
          rw [if_neg h2, if_neg h3, if_neg h4] at hr
          rw [← Option.some.inj hr] at hn
          simp only [parse_transfer_fee]
          rw [h1]
          simp only [Bool.not_true, Bool.false_eq_true, if_false]
          rw [if_neg h2, if_neg h3, if_neg h4, hn]
  · have h1f : pyTruthy (PyVal.str s) = false := by
      revert h1; cases pyTruthy (PyVal.str s) <;> simp
    simp only [parse_transfer_fee]
    rw [h1f]
    simp

/-- Unfolding step: `.get` on a dict returns the stored-or-default value. -/
theorem pyGet_dict (es : List (String × PyVal)) (k : String) (d : PyVal) :
    pyGet (.dict es) k d = .ok ((es.lookup k).getD d) := rfl

/-- Unfolding step: binding a successful `Except` applies the continuation. -/
theorem ok_bind {α β : Type} (x : α) (f : α → Except String β) :
    (Except.ok x : Except String α) >>= f = f x := rfl

/-- Unfolding step: `pure` into `Except` is `ok`. -/
theorem pure_ok {α : Type} (x : α) :
    (pure x : Except String α) = .ok x := rfl

/-- Unfolding step: a successful `Except` is `isOk`. -/
theorem isOk_ok {α : Type} (x : α) :
    (Except.ok x : Except String α).isOk = true := rfl

/-- Unfolding step: `Except.map` over a success. -/
theorem map_ok {α β : Type} (f : α → β) (x : α) :
    Except.map f (Except.ok x : Except String α) = .ok (f x) := rfl

/-- Unfolding step: `Except.map` over a failure. -/
theorem map_error {α β : Type} (f : α → β) (e : String) :
    Except.map f (Except.error e : Except String α) = .error e := rfl

/-- A none-or-dict optional value defaults into a dict under `.get(k, {})`. -/
theorem optIsDict_getD {o : Option PyVal} (h : optIsDict o = true) :
    ∃ ps, o.getD (.dict []) = .dict ps := by
  match o, h with
  | Option.none, _ => exact ⟨[], rfl⟩
  | Option.some (.dict d), _ => exact ⟨d, rfl⟩

/-- On a well-shaped raw record the row construction of lines 100-119 cannot
raise. -/
theorem buildRecord_ok (t : PyVal) (h : wellShaped t = true) :
    ∃ r, buildRecord t = .ok r := by
  match t, h with
  | .dict es, h =>
    simp only [wellShaped, Bool.and_eq_true] at h
    obtain ⟨⟨⟨hp, hf⟩, ht⟩, hfee⟩ := h
    obtain ⟨ps, hps⟩ := optIsDict_getD hp
    obtain ⟨fs, hfs⟩ := optIsDict_getD hf
    obtain ⟨tcs, htc⟩ := optIsDict_getD ht
    obtain ⟨q, hq⟩ := parse_transfer_fee_ok_of _ hfee
    refine (isOk_iff_exists _).mp ?_
    simp only [buildRecord, pyGet_dict, ok_bind, hps, hfs, htc, hq, pure_ok, isOk_ok]

/-- The row-building loop succeeds on a list of well-shaped records and
keeps the record count. -/
theorem buildAll_ok :
    ∀ ts : List PyVal, (∀ t ∈ ts, wellShaped t = true) →
      ∃ rs, buildAll ts = .ok rs ∧ rs.length = ts.length := by
  intro ts
  induction ts with
  | nil => exact fun _ => ⟨[], rfl, rfl⟩
  | cons t ts2 ih =>
    intro h
    obtain ⟨r, hr⟩ := buildRecord_ok t (h t (List.mem_cons_self _ _))
    obtain ⟨rs, hrs, hlen⟩ := ih (fun x hx => h x (List.mem_cons_of_mem _ hx))
    exact ⟨r :: rs,
      by simp only [buildAll, hr, ok_bind, hrs, pure_ok],
      by simp [hlen]⟩

/-- Evaluation of the summarizer on a non-empty table: the guard of line 169
falls through and the summary dict of lines 172-187 is built. -/
theorem generate_transfer_summary_eq (df : List FlatTransfer) (h : df ≠ []) :
    generate_transfer_summary df = Option.some
      { total_transfers := df.length
        total_spending := seriesSum (df.map FlatTransfer.transfer_fee)
        average_fee := seriesMean (df.map FlatTransfer.transfer_fee)
        median_fee := seriesMedian (df.map FlatTransfer.transfer_fee)
        most_expensive_transfer :=
          { player :=
              if (df.map FlatTransfer.transfer_fee).all Option.isNone then .str ""
              else
                match idxmaxFee (df.map FlatTransfer.transfer_fee) with
                | Option.some i => (df.getD i FlatTransfer.defaultRow).player_name
                | Option.none => .str ""
            fee := seriesMax (df.map FlatTransfer.transfer_fee)
            from_club :=
              if (df.map FlatTransfer.transfer_fee).all Option.isNone then .str ""
              else
                match idxmaxFee (df.map FlatTransfer.transfer_fee) with
                | Option.some i => (df.getD i FlatTransfer.defaultRow).from_club_name
                | Option.none => .str ""
            to_club :=
              if (df.map FlatTransfer.transfer_fee).all Option.isNone then .str ""
              else
                match idxmaxFee (df.map FlatTransfer.transfer_fee) with
                | Option.some i => (df.getD i FlatTransfer.defaultRow).to_club_name
                | Option.none => .str "" }
        transfers_by_position := valueCounts (df.map FlatTransfer.player_position)
        transfers_by_month := transfersByMonth df
        top_spending_clubs :=
          nlargest 10 (groupSum (df.map FlatTransfer.to_club_name)
            (df.map FlatTransfer.transfer_fee))
        top_selling_clubs :=
          nlargest 10 (groupSum (df.map FlatTransfer.from_club_name)
            (df.map FlatTransfer.transfer_fee)) } := by
  cases df with
  | nil => exact absurd rfl h
  | cons x rest => rfl

/-- Looking a key up in an association list built by tagging each key of a
list with a function value. -/
theorem lookup_map_keys (f : Nat → Rat) :
    ∀ (ks : List Nat) (m : Nat),
      (ks.map fun k => (k, f k)).lookup m =
        if m ∈ ks then Option.some (f m) else Option.none := by
  intro ks
  induction ks with
  | nil => intro m; simp [List.lookup]
  | cons k ks2 ih =>
    intro m
    by_cases hmk : m = k
    · subst hmk
      simp [List.lookup]
    · have hbeq : (m == k) = false := beq_eq_false_iff_ne.mpr hmk
      simp only [List.map_cons, List.lookup, hbeq, ih, List.mem_cons]
      by_cases hmem : m ∈ ks2
      · rw [if_pos hmem, if_pos (Or.inr hmem)]
      · rw [if_neg hmem, if_neg (by rintro (h | h); exact hmk h; exact hmem h)]

/-! ### Claim theorems -/

/-- C1: the fee parser maps the specified concrete inputs to the specified
values ("€100M" to 100.0, "500K" and "500000" to 0.5, "Free transfer",
"garbage" and "" to 0.0), never raises on any string input, and whenever
the cleaned remainder handed to `float` is non-numeric it returns 0.0
instead of raising. -/
theorem fee_parser_spec_cases :
    parse_transfer_fee (.str "€100M") = .ok (PFloat.finite 100) ∧
    parse_transfer_fee (.str "500K") = .ok (PFloat.finite (1 / 2)) ∧
    parse_transfer_fee (.str "500000") = .ok (PFloat.finite (1 / 2)) ∧
    parse_transfer_fee (.str "Free transfer") = .ok (PFloat.finite 0) ∧
    parse_transfer_fee (.str "garbage") = .ok (PFloat.finite 0) ∧
    parse_transfer_fee (.str "") = .ok (PFloat.finite 0) ∧
    (∀ s : String, (parse_transfer_fee (.str s)).isOk = true) ∧
    (∀ (s : String) (r : List Char), feeRemainder s = Option.some r →
      pyFloat r = Option.none → parse_transfer_fee (.str s) = .ok (PFloat.finite 0)) :=
  ⟨by with_unfolding_all decide, by with_unfolding_all decide, by with_unfolding_all decide,
   by with_unfolding_all decide, by with_unfolding_all decide, by with_unfolding_all decide,
   parse_transfer_fee_str_isOk, parse_fee_of_remainder_none⟩

/-- C1 witness: "xyzM" reaches the M-branch with the non-numeric remainder
"xyz", and the parser returns 0.0 there. -/
theorem fee_parser_spec_cases_witness :
    feeRemainder "xyzM" = Option.some "xyz".data ∧
    pyFloat "xyz".data = Option.none ∧
    parse_transfer_fee (.str "xyzM") = .ok (PFloat.finite 0) :=
  ⟨by with_unfolding_all decide, by with_unfolding_all decide,
   fee_parser_spec_cases.2.2.2.2.2.2.2 "xyzM" "xyz".data
     (by with_unfolding_all decide) (by with_unfolding_all decide)⟩

/-- C10: the fee parser's output is not guaranteed non-negative: "€-5M"
parses to -5.0, a negative value, because the "-" no-fee marker is compared
against the whole lowercased string before currency stripping, so the
embedded minus sign survives into the M-branch. -/
theorem fee_parser_negative :
    parse_transfer_fee (.str "€-5M") = .ok (PFloat.finite (-5)) ∧ ((-5 : Rat) < 0) :=
  ⟨by with_unfolding_all decide, by with_unfolding_all decide⟩

/-- C8: summarizing the empty transfer table short-circuits to the empty
report before any aggregate is computed, and raises nothing. -/
theorem summarize_empty_table :
    generate_transfer_summary [] = Option.none := rfl

/-- C5: on the three-row table with fees [10.0, 20.0, null] and destination
clubs ["A", "B", "A"], total spending is 30.0, the average fee is 15.0
(the null excluded, not counted as zero), and the top-spending-clubs dict
maps exactly "A" to 10.0 and "B" to 20.0. -/
theorem summary_concrete_scenario :
    (generate_transfer_summary scenarioTable).map SummaryReport.total_spending =
      Option.some 30 ∧
    (generate_transfer_summary scenarioTable).map SummaryReport.average_fee =
      Option.some (Option.some 15) ∧
    (generate_transfer_summary scenarioTable).map
      (fun s => s.top_spending_clubs.lookup (PyVal.str "A")) =
      Option.some (Option.some 10) ∧
    (generate_transfer_summary scenarioTable).map
      (fun s => s.top_spending_clubs.lookup (PyVal.str "B")) =
      Option.some (Option.some 20) ∧
    (generate_transfer_summary scenarioTable).map
      (fun s => s.top_spending_clubs.length) = Option.some 2 :=
  ⟨by with_unfolding_all decide, by with_unfolding_all decide, by with_unfolding_all decide,
   by with_unfolding_all decide, by with_unfolding_all decide⟩

/-- C2 counterexample: normalizing the empty raw record yields
`player_age = 0` — the default 0 of line 103 survives the numeric coercion
of line 127 — not a missing/null age as claimed. -/
theorem normalize_empty_age_cex :
    (process_transfer_data [PyVal.dict []]).map (List.map FlatTransfer.player_age) =
      .ok [Option.some 0] ∧
    ¬((process_transfer_data [PyVal.dict []]).map (List.map FlatTransfer.player_age) =
      .ok [Option.none]) :=
  ⟨by with_unfolding_all decide, by with_unfolding_all decide⟩

/-- C2 (amended): normalizing the empty raw record gives player_name "",
player_age 0 (the missing-value default is 0, which survives numeric
coercion), transfer_fee 0.0, currency "EUR" and market_value 0; a
non-numeric source value for player_age or market_value, by contrast, is
coerced to null (excluded from numeric aggregates), unlike the fee's
missing-to-0.0 rule. -/
theorem normalize_defaults_amended :
    ((process_transfer_data [PyVal.dict []]).map (List.map FlatTransfer.player_name) =
      .ok [PyVal.str ""]) ∧
    ((process_transfer_data [PyVal.dict []]).map (List.map FlatTransfer.player_age) =
      .ok [Option.some 0]) ∧
    ((process_transfer_data [PyVal.dict []]).map (List.map FlatTransfer.transfer_fee) =
      .ok [Option.some 0]) ∧
    ((process_transfer_data [PyVal.dict []]).map (List.map FlatTransfer.transfer_fee_currency) =
      .ok [PyVal.str "EUR"]) ∧
    ((process_transfer_data [PyVal.dict []]).map (List.map FlatTransfer.market_value) =
      .ok [Option.some 0]) ∧
    (∀ s : String, pyFloat s.data = Option.none →
      (process_transfer_data
          [PyVal.dict [("player", PyVal.dict [("age", PyVal.str s), ("market_value", PyVal.str s)])]]).map
        (List.map fun r => (r.player_age, r.market_value)) = .ok [(Option.none, Option.none)]) := by
  refine ⟨by with_unfolding_all rfl, by with_unfolding_all decide, by with_unfolding_all decide,
    by with_unfolding_all rfl, by with_unfolding_all decide, ?_⟩
  intro s h
  show Except.ok [((pyFloat s.data).bind pdCellOfFloat, (pyFloat s.data).bind pdCellOfFloat)] = _
  rw [h]
  rfl

/-- C2 witness: "abc" is a non-numeric source value, and both coerced
columns come out null on it. -/
theorem normalize_defaults_amended_witness :
    pyFloat "abc".data = Option.none ∧
    (process_transfer_data
        [PyVal.dict [("player", PyVal.dict [("age", PyVal.str "abc"), ("market_value", PyVal.str "abc")])]]).map
      (List.map fun r => (r.player_age, r.market_value)) = .ok [(Option.none, Option.none)] :=
  ⟨by with_unfolding_all decide,
   normalize_defaults_amended.2.2.2.2.2 "abc" (by with_unfolding_all decide)⟩

/-- C3 counterexample: the raw record whose `player` field holds the
non-mapping value 5 makes normalization raise `AttributeError` at
`transfer.get('player', \x7b\x7d).get('id', '')`, so normalization is not
total over arbitrary mappings. -/
theorem normalize_totality_cex :
    (process_transfer_data [PyVal.dict [("player", PyVal.int 5)]]).isOk = false := by
  with_unfolding_all decide

/-- C3 (amended): normalization is total and field-complete on every list of
well-shaped raw records — mappings whose `player`/`from_club`/`to_club`
values (when present) are mappings and whose `fee` value (when present) is
falsy or a string; the output has one fixed-schema `FlatTransfer` per input
record.  (On other mappings, e.g. `player` holding 5, it raises.) -/
theorem normalize_total_wellShaped :
    ∀ ts : List PyVal, (∀ t ∈ ts, wellShaped t = true) →
      ∃ rs, process_transfer_data ts = .ok rs ∧ rs.length = ts.length := by
  intro ts h
  cases ts with
  | nil => exact ⟨[], rfl, rfl⟩
  | cons t ts2 =>
    obtain ⟨rs0, hrs0, hlen⟩ := buildAll_ok (t :: ts2) h
    exact ⟨rs0.map convertRecord,
      by rw [show process_transfer_data (t :: ts2) =
          (buildAll (t :: ts2)).map (List.map convertRecord) from rfl, hrs0, map_ok],
      by simp [hlen]⟩

/-- C3 witness: a one-record list with a string fee is well-shaped, and
normalization returns one flat record on it. -/
theorem normalize_total_wellShaped_witness :
    ∃ rs, process_transfer_data [PyVal.dict [("fee", PyVal.str "€100M")]] = .ok rs ∧
      rs.length = List.length [PyVal.dict [("fee", PyVal.str "€100M")]] :=
  normalize_total_wellShaped _
    (by
      intro t ht
      rw [List.mem_singleton] at ht
      rw [ht]
      with_unfolding_all decide)

/-- C4 counterexample: on a one-record table whose only fee is null, the
`most_expensive_transfer.fee` is the max of an all-NaN column, i.e. NaN
(null) — not the default 0 the claim states. -/
theorem most_expensive_all_null_cex :
    (generate_transfer_summary [FlatTransfer.defaultRow]).map
      (fun s => s.most_expensive_transfer.fee) = Option.some Option.none ∧
    ¬((generate_transfer_summary [FlatTransfer.defaultRow]).map
      (fun s => s.most_expensive_transfer.fee) = Option.some (Option.some 0)) :=
  ⟨by with_unfolding_all decide, by with_unfolding_all decide⟩

/-- C4 (amended): on every non-empty table whose fees are all null, the
summarizer raises nothing and the most-expensive sub-report holds "" for
the player and both club names, while its fee is null (NaN), not 0. -/
theorem most_expensive_all_null_amended :
    ∀ df : List FlatTransfer, df ≠ [] → (∀ r ∈ df, r.transfer_fee = Option.none) →
      ∃ s, generate_transfer_summary df = Option.some s ∧
        s.most_expensive_transfer.player = .str "" ∧
        s.most_expensive_transfer.fee = Option.none ∧
        s.most_expensive_transfer.from_club = .str "" ∧
        s.most_expensive_transfer.to_club = .str "" := by
  intro df hne hall
  have hfees : ∀ y ∈ df.map FlatTransfer.transfer_fee, y = Option.none := by
    intro y hy
    rw [List.mem_map] at hy
    obtain ⟨r, hr, hy2⟩ := hy
    rw [← hy2]
    exact hall r hr
  have hnil : (df.map FlatTransfer.transfer_fee).filterMap id = [] :=
    filterMap_id_eq_nil hfees
  have hmax : seriesMax (df.map FlatTransfer.transfer_fee) = Option.none := by
    unfold seriesMax
    rw [hnil]
    rfl
  have hallb : (df.map FlatTransfer.transfer_fee).all Option.isNone = true := by
    rw [List.all_eq_true]
    intro y hy
    rw [hfees y hy]
    rfl
  refine ⟨_, generate_transfer_summary_eq df hne, ?_, ?_, ?_, ?_⟩
  · simp [hallb]
  · simp [hmax]
  · simp [hallb]
  · simp [hallb]

/-- C4 witness: the singleton all-null-fee table satisfies both hypotheses,
and its sub-report comes out with "" names and a null fee. -/
theorem most_expensive_all_null_amended_witness :
    ∃ s, generate_transfer_summary [FlatTransfer.defaultRow] = Option.some s ∧
      s.most_expensive_transfer.player = .str "" ∧
      s.most_expensive_transfer.fee = Option.none ∧
      s.most_expensive_transfer.from_club = .str "" ∧
      s.most_expensive_transfer.to_club = .str "" :=
  most_expensive_all_null_amended [FlatTransfer.defaultRow] (List.cons_ne_nil _ _)
    (by
      intro r hr
      rw [List.mem_singleton] at hr
      rw [hr]
      rfl)

/-- C6: whenever the table is non-empty and some fee is non-null, the
most-expensive sub-report is read from the row of the maximal fee, and in
case of ties from the first (lowest-index) row attaining it — the
`idxmax`-first-occurrence rule. -/
theorem most_expensive_max_first :
    ∀ df : List FlatTransfer, df ≠ [] →
      (∃ r ∈ df, r.transfer_fee.isSome = true) →
      ∃ s i m, generate_transfer_summary df = Option.some s ∧
        i < df.length ∧
        (df.getD i FlatTransfer.defaultRow).transfer_fee = Option.some m ∧
        (∀ r ∈ df, ∀ v : Rat, r.transfer_fee = Option.some v → v ≤ m) ∧
        (∀ j, j < i → (df.getD j FlatTransfer.defaultRow).transfer_fee ≠ Option.some m) ∧
        s.most_expensive_transfer.player = (df.getD i FlatTransfer.defaultRow).player_name ∧
        s.most_expensive_transfer.fee = Option.some m ∧
        s.most_expensive_transfer.from_club =
          (df.getD i FlatTransfer.defaultRow).from_club_name ∧
        s.most_expensive_transfer.to_club =
          (df.getD i FlatTransfer.defaultRow).to_club_name := by
  intro df hne hex
  have hfm : (df.map FlatTransfer.transfer_fee).filterMap id ≠ [] := by
    obtain ⟨r, hr, hs⟩ := hex
    obtain ⟨v, hv⟩ := Option.isSome_iff_exists.mp hs
    intro hnil
    have hv2 : v ∈ (df.map FlatTransfer.transfer_fee).filterMap id :=
      mem_filterMap_id.mpr (List.mem_map.mpr ⟨r, hr, hv⟩)
    rw [hnil] at hv2
    simp at hv2
  obtain ⟨m, hmax, hmem, hub⟩ := seriesMax_spec (df.map FlatTransfer.transfer_fee) hfm
  obtain ⟨i, hi⟩ := firstIdx_isSome (fun x => decide (x = Option.some m))
    (df.map FlatTransfer.transfer_fee) ⟨Option.some m, hmem, by simp⟩
  obtain ⟨hlen, hat, hbefore⟩ :=
    firstIdx_spec (fun x => decide (x = Option.some m)) Option.none
      (df.map FlatTransfer.transfer_fee) i hi
  rw [decide_eq_true_eq] at hat
  have hleni : i < df.length := by rw [List.length_map] at hlen; exact hlen
  have hgetd : (df.map FlatTransfer.transfer_fee).getD i Option.none =
      (df.getD i FlatTransfer.defaultRow).transfer_fee :=
    getD_map_of_lt FlatTransfer.transfer_fee FlatTransfer.defaultRow Option.none df i hleni
  have hidx : idxmaxFee (df.map FlatTransfer.transfer_fee) = Option.some i := by
    unfold idxmaxFee
    rw [hmax]
    exact hi
  have hnotall : (df.map FlatTransfer.transfer_fee).all Option.isNone = false := by
    rcases hB : (df.map FlatTransfer.transfer_fee).all Option.isNone
    · rfl
    · rw [List.all_eq_true] at hB
      have hone := hB (Option.some m) hmem
      simp at hone
  refine ⟨_, i, m, generate_transfer_summary_eq df hne, hleni, ?_, ?_, ?_, ?_, ?_, ?_, ?_⟩
  · rw [← hgetd]
    exact hat
  · intro r hr v hv
    exact hub v (List.mem_map.mpr ⟨r, hr, hv⟩)
  · intro j hj hcon
    have hj2 : j < df.length := lt_trans hj hleni
    have hfalse := hbefore j hj
    rw [getD_map_of_lt FlatTransfer.transfer_fee FlatTransfer.defaultRow Option.none df j hj2]
      at hfalse
    exact absurd hcon (of_decide_eq_false hfalse)
  · simp [hnotall, hidx]
  · exact hmax
  · simp [hnotall, hidx]
  · simp [hnotall, hidx]

/-- C6 witness: on the two-row table with tied maximal fees, the theorem
applies and picks an index bearing fee 5. -/
theorem most_expensive_max_first_witness :
    ∃ s i m, generate_transfer_summary [tieRowP1, tieRowP2] = Option.some s ∧
      i < [tieRowP1, tieRowP2].length ∧
      ([tieRowP1, tieRowP2].getD i FlatTransfer.defaultRow).transfer_fee = Option.some m ∧
      (∀ r ∈ [tieRowP1, tieRowP2], ∀ v : Rat, r.transfer_fee = Option.some v → v ≤ m) ∧
      (∀ j, j < i →
        ([tieRowP1, tieRowP2].getD j FlatTransfer.defaultRow).transfer_fee ≠ Option.some m) ∧
      s.most_expensive_transfer.player =
        ([tieRowP1, tieRowP2].getD i FlatTransfer.defaultRow).player_name ∧
      s.most_expensive_transfer.fee = Option.some m ∧
      s.most_expensive_transfer.from_club =
        ([tieRowP1, tieRowP2].getD i FlatTransfer.defaultRow).from_club_name ∧
      s.most_expensive_transfer.to_club =
        ([tieRowP1, tieRowP2].getD i FlatTransfer.defaultRow).to_club_name :=
  most_expensive_max_first [tieRowP1, tieRowP2] (List.cons_ne_nil _ _)
    ⟨tieRowP1, List.mem_cons_self _ _, rfl⟩

/-- C7: on every non-empty table, `transfers_by_month` holds one entry per
month occurring in some record's non-null date, valued at the skipna sum of
the fees of the records of that month; null-date records are dropped from
the grouping only, still counting toward `total_transfers`. -/
theorem transfers_by_month_spec :
    ∀ df : List FlatTransfer, df ≠ [] →
      ∃ s, generate_transfer_summary df = Option.some s ∧
        s.total_transfers = df.length ∧
        ∀ m : Nat,
          s.transfers_by_month.lookup m =
            if df.any (fun r => decide (monthOf r = Option.some m)) = true then
              Option.some (seriesSum
                ((df.filter fun r => decide (monthOf r = Option.some m)).map
                  FlatTransfer.transfer_fee))
            else Option.none := by
  intro df hne
  refine ⟨_, generate_transfer_summary_eq df hne, rfl, ?_⟩
  intro m
  show (transfersByMonth df).lookup m = _
  unfold transfersByMonth
  rw [lookup_map_keys]
  by_cases hmem : m ∈ ((df.filterMap monthOf).dedup.insertionSort (· ≤ ·))
  · rw [if_pos hmem]
    have hany : df.any (fun r => decide (monthOf r = Option.some m)) = true := by
      rw [List.any_eq_true]
      have hm2 : m ∈ df.filterMap monthOf :=
        List.mem_dedup.mp ((List.mem_insertionSort _).mp hmem)
      rw [List.mem_filterMap] at hm2
      obtain ⟨r, hr, hrm⟩ := hm2
      exact ⟨r, hr, by rw [hrm]; simp⟩
    rw [if_pos hany]
  · rw [if_neg hmem]
    have hany : ¬(df.any (fun r => decide (monthOf r = Option.some m)) = true) := by
      intro h
      rw [List.any_eq_true] at h
      obtain ⟨r, hr, hd⟩ := h
      rw [decide_eq_true_eq] at hd
      exact hmem ((List.mem_insertionSort _).mpr
        (List.mem_dedup.mpr (List.mem_filterMap.mpr ⟨r, hr, hd⟩)))
    rw [if_neg hany]

/-- C7 witness: the singleton table with one dated record satisfies the
theorem; its month mapping and total count follow. -/
theorem transfers_by_month_spec_witness :
    ∃ s, generate_transfer_summary [datedRow] = Option.some s ∧
      s.total_transfers = [datedRow].length ∧
      ∀ m : Nat,
        s.transfers_by_month.lookup m =
          if [datedRow].any (fun r => decide (monthOf r = Option.some m)) = true then
            Option.some (seriesSum
              (([datedRow].filter fun r => decide (monthOf r = Option.some m)).map
                FlatTransfer.transfer_fee))
          else Option.none :=
  transfers_by_month_spec [datedRow] (List.cons_ne_nil _ _)
